import Mathlib

/-!
Verification development for the neo-go node sources: a shallow embedding of
the oracle request processor, the consensus relay path, the native-contract
dispatcher, contract management and the multi-signature script builder,
with theorems checking the natural-language specification against them.
-/

set_option maxRecDepth 4000

namespace NeoGo

/-! ## Oracle response codes (pkg/core/transaction, oracle response attribute) -/

/-- Oracle response codes used by `processRequest`
(`transaction.Success`, `transaction.ProtocolNotSupported`, ...). -/
inductive ResponseCode where
  | Success
  | ProtocolNotSupported
  | ConsensusUnreachable
  | NotFound
  | Timeout
  | Forbidden
  | ResponseTooLarge
  | ContentTypeNotSupported
  | Error
  deriving DecidableEq, Repr

/-! ## checkMediaType (pkg/services/oracle/request.go, lines 274-290)

`mime.ParseMediaType` is a Go standard-library routine, outside this
repository; the embedding takes it as a function argument returning the
parsed media type (`none` models a parse error). -/

/-- Embedding of `checkMediaType(hdr, allowed)`: accept every header when the
allowed list is empty, otherwise parse the header and look the parsed type up
in the list. -/
def checkMediaType (parseMediaType : String → Option String)
    (hdr : String) (allowed : List String) : Bool :=
  if allowed.length = 0 then
    true
  else
    match parseMediaType hdr with
    | none => false
    | some typ => allowed.contains typ

/-! ## processRequest response-code determination
(pkg/services/oracle/request.go, lines 105-188)

The external world seen by one `processRequest` call is captured by an
environment value: the outcome of `url.ParseRequestURI`, of the HTTPS
round-trip, of the NeoFS fetch, and the request's filter. -/

/-- Outcome of `url.ParseRequestURI(req.Req.URL)`. -/
inductive URLParseResult where
  | malformed
  | parsed (scheme : String)
  deriving DecidableEq, Repr

/-- Outcome of `readResponse(r.Body, transaction.MaxOracleResultSize)`. -/
inductive ReadResult where
  | bytes (b : List Nat)
  | tooLarge
  | readErr
  deriving DecidableEq, Repr

/-- Outcome of the HTTPS round-trip: `http.NewRequest` failure, `Client.Do`
failure (restricted-redirect or other), or a response with its status code,
content-type header and body read outcome. -/
inductive HTTPOutcome where
  | newRequestErr
  | doRestrictedRedirect
  | doErr
  | resp (status : Nat) (contentType : String) (body : ReadResult)
  deriving DecidableEq, Repr

/-- Outcome of `neofs.Get`. -/
inductive NeoFSOutcome where
  | ok (b : List Nat)
  | err
  deriving DecidableEq, Repr

/-- Modelled from the spec: `neofs.URIScheme` is not under src/; per the spec
the URL scheme must be https or neofs, so the NeoFS scheme constant is
"neofs". -/
def neofsURIScheme : String := "neofs"

/-- Environment of one `processRequest` call: outcomes of the external
operations it performs, the configured allowed content types, the
standard-library media-type parser and the request's filter
(`filterRequest`, returning `none` on filter failure). -/
structure FetchEnv where
  urlParse : URLParseResult
  http : HTTPOutcome
  neofs : NeoFSOutcome
  allowedContentTypes : List String
  parseMediaType : String → Option String
  filterRequest : List Nat → Option (List Nat)

/-- The fetch stage of `processRequest` (lines 115-180): response code and
raw result bytes before the filter is applied. -/
def fetchStage (env : FetchEnv) : ResponseCode × List Nat :=
  match env.urlParse with
  | .malformed => (.ProtocolNotSupported, [])
  | .parsed scheme =>
    if scheme = "https" then
      match env.http with
      | .newRequestErr => (.Error, [])
      | .doRestrictedRedirect => (.Forbidden, [])
      | .doErr => (.Error, [])
      | .resp status contentType body =>
        if status = 200 then
          if !checkMediaType env.parseMediaType contentType env.allowedContentTypes then
            (.ContentTypeNotSupported, [])
          else
            match body with
            | .bytes b => (.Success, b)
            | .tooLarge => (.ResponseTooLarge, [])
            | .readErr => (.Error, [])
        else if status = 403 then (.Forbidden, [])
        else if status = 404 then (.NotFound, [])
        else if status = 408 then (.Timeout, [])
        else (.Error, [])
    else if scheme = neofsURIScheme then
      match env.neofs with
      | .ok b => (.Success, b)
      | .err => (.Error, [])
    else
      (.ProtocolNotSupported, [])

/-- The full response-code determination of `processRequest` (lines 115-187):
fetch stage followed by the filter stage, which turns `Success` into `Error`
when the request's filter fails. -/
def processRequestCode (env : FetchEnv) : ResponseCode × List Nat :=
  let fetched := fetchStage env
  if fetched.1 = ResponseCode.Success then
    match env.filterRequest fetched.2 with
    | some r => (.Success, r)
    | none => (.Error, [])
  else
    fetched

/-! ## Response transaction valid-until heights
(pkg/services/oracle/request.go, lines 190-214)

Heights are Go `uint32` values; additions are taken mod 2^32. The request
height comes from `Chain.GetTransaction(req.Req.OriginalTxID)`; `none`
models `storage.ErrKeyNotFound` (transaction not yet persisted), in which
case the current height is used. -/

/-- `2^32`, the modulus of Go `uint32` arithmetic. -/
def u32Mod : Nat := 2 ^ 32

/-- Valid-until height of the primary response transaction:
`h := request height (or current height) ; h += vubInc`. -/
def primaryVUB (currentHeight vubInc : Nat) (reqHeight : Option Nat) : Nat :=
  let h := match reqHeight with
    | some rh => rh
    | none => currentHeight
  (h + vubInc) % u32Mod

/-- The `for h <= currentHeight { h += vubInc }` loop, with explicit fuel
(the Go loop has no bound; the fuel is chosen large enough in `backupVUB`). -/
def bumpVUB (currentHeight vubInc : Nat) : Nat → Nat → Option Nat
  | h, 0 => if currentHeight < h then some h else none
  | h, fuel + 1 =>
    if currentHeight < h then some h
    else bumpVUB currentHeight vubInc ((h + vubInc) % u32Mod) fuel

/-- Valid-until height of the backup (`ConsensusUnreachable`) response
transaction: the primary height bumped by `vubInc` until it exceeds the
current height. -/
def backupVUB (currentHeight vubInc : Nat) (reqHeight : Option Nat) : Option Nat :=
  bumpVUB currentHeight vubInc (primaryVUB currentHeight vubInc reqHeight)
    (currentHeight + 2)

/-! ## Oracle incomplete-tx latch
(pkg/services/oracle/request.go, lines 216-272)

The `incompleteTx` type itself (`getResponse`, `finalize`, `addResponse`) is
not under src/ — only its callers in `processRequest` and
`processFailedRequest` are. Per the spec, `finalize` succeeds exactly when
the collected signature set reaches the Designation threshold; its outcome
is modelled as an input of each step (`finReady`), and the latch logic of
lines 228-235 and 246-271 is embedded verbatim. Transactions are identified
by their hash, modelled as `Nat`. -/

/-- The fields of an `incompleteTx` entry that the latch logic reads and
writes: the main response transaction, the backup transaction and the
`isSent` latch. -/
structure IncompleteTx where
  tx : Nat
  backupTx : Nat
  isSent : Bool
  deriving DecidableEq, Repr

/-- One `sendTx` (mempool callback) invocation: `readySend` from the
`if ready` branch after `finalize`, `resend` from `processFailedRequest`'s
already-sent branch (request.go line 252). -/
inductive PoolEvent where
  | readySend (tx : Nat)
  | resend (tx : Nat)
  deriving DecidableEq, Repr

/-- State of one oracle request id: its incomplete-tx entry (if any) and the
log of `sendTx` calls made for it. -/
structure OracleReqState where
  entry : Option IncompleteTx
  pooled : List PoolEvent
  deriving DecidableEq, Repr

/-- Oracle service calls affecting one request id. `procRequest` is
`processRequest` with a non-nil request (`newTx`/`newBackup` are the freshly
built response transactions, `finReady` the outcome of
`incTx.finalize(oracleNodes, false)`); `procFailed` is
`processFailedRequest` (also reached from `processRequest` when the request
is nil), with `finReady` the outcome of `incTx.finalize(oracleNodes, true)`. -/
inductive OracleAction where
  | procRequest (newTx newBackup : Nat) (finReady : Bool)
  | procFailed (finReady : Bool)
  deriving DecidableEq, Repr

/-- One step of the latch logic (request.go lines 216-241 and 244-272). -/
def oracleStep (s : OracleReqState) (a : OracleAction) : OracleReqState :=
  match a with
  | .procRequest newTx newBackup finReady =>
    -- getResponse(req.ID, true) creates an empty entry when absent.
    let e := match s.entry with
      | some e => e
      | none => { tx := 0, backupTx := 0, isSent := false }
    -- incTx.tx, incTx.backupTx are overwritten, then finalize and the latch.
    let ready := finReady && !e.isSent
    let e' : IncompleteTx :=
      { tx := newTx, backupTx := newBackup, isSent := e.isSent || finReady }
    { entry := some e',
      pooled := s.pooled ++ (if ready then [PoolEvent.readySend newTx] else []) }
  | .procFailed finReady =>
    match s.entry with
    | none => s
    | some e =>
      if e.isSent then
        -- Tx was sent but not yet persisted: pool it again.
        { s with pooled := s.pooled ++ [PoolEvent.resend e.tx] }
      else
        let ready := finReady
        let e' : IncompleteTx := { e with isSent := e.isSent || finReady }
        { entry := some e',
          pooled := s.pooled ++ (if ready then [PoolEvent.readySend e.backupTx] else []) }

/-- Run a sequence of oracle service calls for one request id. -/
def oracleRun (s : OracleReqState) : List OracleAction → OracleReqState
  | [] => s
  | a :: rest => oracleRun (oracleStep s a) rest

/-- Initial state of a request id: no entry, nothing pooled. -/
def oracleInit : OracleReqState := { entry := none, pooled := [] }

/-- Whether a pool event came from the `if ready` (finalize) branch. -/
def isReadySend : PoolEvent → Bool
  | .readySend _ => true
  | .resend _ => false

/-- Number of `sendTx` calls made through the finalize/ready path. -/
def readyCount (s : OracleReqState) : Nat :=
  (s.pooled.filter isReadySend).length

/-- Whether the entry's `isSent` latch is set (false when absent). -/
def entrySent (s : OracleReqState) : Bool :=
  match s.entry with
  | some e => e.isSent
  | none => false

/-! ## Consensus payload relay (src/unnamed/part_001: consensus service)

`cacheMaxCapacity = 100` and `OnPayload` are under src/; the `relayCache`
implementation (`newFIFOCache`, `Has`, `Add`) is not. Modelled from the
spec: a FIFO cache of the given capacity holding recently relayed payload
hashes — `Add` appends, evicting the oldest entry when full; `Has` is
membership. Payloads are identified by their hash (`Nat`); signature
validation (`validatePayload`) is abstracted as a predicate on the hash. -/

/-- `cacheMaxCapacity` (src/unnamed/part_001 line 32). -/
def cacheMaxCapacity : Nat := 100

/-- Modelled from the spec: FIFO cache `Add` — append the new hash, dropping
the oldest when the cache is at capacity. -/
def cacheAdd (cap : Nat) (cache : List Nat) (h : Nat) : List Nat :=
  (if cap ≤ cache.length then cache.drop 1 else cache) ++ [h]

/-- Modelled from the spec: FIFO cache `Has` — membership. -/
def cacheHas (cache : List Nat) (h : Nat) : Bool :=
  cache.contains h

/-- Consensus service state relevant to payload relay: the FIFO cache and
the log of payload hashes passed to `Config.Broadcast`. -/
structure RelayState where
  cache : List Nat
  relayed : List Nat
  deriving DecidableEq, Repr

/-- `OnPayload` (src/unnamed/part_001 lines 250-269) restricted to validate,
duplicate-suppress, rebroadcast and cache: a payload failing validation or
whose hash is already cached is ignored; otherwise it is broadcast and its
hash added to the cache. -/
def onPayload (valid : Nat → Bool) (s : RelayState) (h : Nat) : RelayState :=
  if !valid h || cacheHas s.cache h then s
  else
    { cache := cacheAdd cacheMaxCapacity s.cache h,
      relayed := s.relayed ++ [h] }

/-- Deliver a sequence of payloads to `OnPayload`. -/
def runPayloads (valid : Nat → Bool) (s : RelayState) : List Nat → RelayState
  | [] => s
  | h :: hs => runPayloads valid (onPayload valid s h) hs

/-- Initial relay state: empty cache, nothing relayed. -/
def relayInit : RelayState := { cache := [], relayed := [] }

/-! ## Native contract dispatcher
(src/pkg/core/native/native_test/common_test.go lines 117-155, `native.Call`)

Stack items are modelled as `Int` (the version is popped as a BigInt, native
method results are opaque); a method's handler is modelled as a function
from its popped arguments to its result. `CallFlags.Has` and `VM.AddGas`
are not under src/; `Has` is the standard bitmask inclusion and `AddGas`
(modelled from the spec's gas accounting) fails when the limit is
non-negative and the added price crosses it. -/

/-- Metadata of one native-contract method: required call flags, fixed
price, declared parameter count, whether the declared return type is Void,
and the handler. -/
structure MethodMD where
  requiredFlags : Nat
  price : Int
  paramCount : Nat
  isVoid : Bool
  impl : List Int → Int

/-- A native contract: its fixed hash and its methods keyed by bytecode
offset (`GetMethodByOffset`). -/
structure NativeContract where
  hash : Nat
  methodAt : Nat → Option MethodMD

/-- The VM context fields `native.Call` reads and writes: evaluation stack,
current script hash, instruction pointer, call-flag mask, gas counters. -/
structure VMCtx where
  estack : List Int
  currentScriptHash : Nat
  ip : Nat
  callFlags : Nat
  gasConsumed : Int
  gasLimit : Int

/-- `CallFlags.Has`: the mask includes all required flags. -/
def flagsHas (flags required : Nat) : Bool :=
  Nat.land flags required = required

/-- Embedding of `native.Call`: pop the version, locate the native contract
by the current script hash, locate the method by the current instruction
offset, check call flags and gas, pop the declared number of arguments, run
the handler and push its result unless the return type is Void. -/
def nativeCall (natives : List NativeContract) (ctx : VMCtx) :
    Except String VMCtx :=
  match ctx.estack with
  | [] => .error "stack is empty"
  | version :: rest =>
    if version ≠ 0 then
      .error "native contract version is not active"
    else
      match natives.find? (fun c => c.hash == ctx.currentScriptHash) with
      | none => .error "native contract not found"
      | some c =>
        match c.methodAt ctx.ip with
        | none => .error "method not found"
        | some m =>
          if !flagsHas ctx.callFlags m.requiredFlags then
            .error "missing call flags"
          else
            let consumed := ctx.gasConsumed + m.price
            if 0 ≤ ctx.gasLimit ∧ ctx.gasLimit < consumed then
              .error "gas limit exceeded"
            else if rest.length < m.paramCount then
              .error "stack is empty"
            else
              .ok { ctx with
                      estack :=
                        if m.isVoid then rest.drop m.paramCount
                        else m.impl (rest.take m.paramCount) :: rest.drop m.paramCount,
                      gasConsumed := consumed }

/-- Whether an `Except` computation failed. -/
def exceptFailed {α : Type} (e : Except String α) : Bool :=
  match e with
  | .error _ => true
  | .ok _ => false

/-! ## Multi-signature redeem script (src/unnamed/part_004,
`CreateMultiSigRedeemScript`)

`vm.EmitInt`, `vm.EmitBytes`, the `CHECKMULTISIG` opcode byte and the
public-key ordering are not under src/; they are taken as parameters
(byte-emitters, the opcode byte, and a comparator), and the sort is an
insertion sort with the comparator. -/

/-- Insertion step of the key sort. -/
def insertKey {K : Type} (le : K → K → Bool) (k : K) : List K → List K
  | [] => [k]
  | x :: xs => if le k x then k :: x :: xs else x :: insertKey le k xs

/-- Sort the public keys by the comparator (`sort.Sort(publicKeys)`). -/
def sortKeys {K : Type} (le : K → K → Bool) : List K → List K
  | [] => []
  | x :: xs => insertKey le x (sortKeys le xs)

/-- Embedding of `CreateMultiSigRedeemScript(m, publicKeys)`: validate `m`,
then emit `m`, the sorted public keys, the key count and the
`CHECKMULTISIG` opcode. -/
def CreateMultiSigRedeemScript {K : Type} (le : K → K → Bool)
    (emitInt : Int → List Nat) (emitBytes : K → List Nat)
    (opCheckMultisig : Nat) (m : Int) (publicKeys : List K) :
    Except String (List Nat) :=
  if m ≤ 1 then
    .error "param m cannot be smaller or equal to 1"
  else if (publicKeys.length : Int) < m then
    .error "length of the signatures is higher then the number of public keys"
  else if 1024 < m then
    .error "public key count exceeds maximum of length 1024"
  else
    .ok (emitInt m
      ++ ((sortKeys le publicKeys).map emitBytes).flatten
      ++ emitInt (publicKeys.length : Int)
      ++ [opCheckMultisig])

/-! ## Contract management (Deploy / Update / Destroy / GetContract)

Modelled from the spec: the Management native contract implementation and
`state.CreateContractHash` are not under src/ — only
`TestDeployGetUpdateDestroyContract` is. Per the spec, deploy assigns the
next positive integer id and a zero update counter, the contract hash is a
digest of sender and contract data (`state.CreateContractHash(sender,
script)` in the test, abstracted here as a function of sender and script),
update keeps hash and id and increments the counter, destroy removes the
contract. Hashes, senders and manifests are opaque (`Nat`, `Nat`,
`String`). -/

/-- Contract state: `{id, update-counter, hash, script, manifest}`. -/
structure ContractState where
  id : Int
  updateCounter : Nat
  hash : Nat
  script : List Nat
  manifest : String
  deriving DecidableEq, Repr

/-- Management storage: deployed contracts (keyed by hash) and the next id
to assign. -/
structure ManagementState where
  contracts : List ContractState
  nextID : Int
  deriving DecidableEq, Repr

/-- Genesis management state: no contracts, next id 1. -/
def mgmtInit : ManagementState := { contracts := [], nextID := 1 }

/-- `GetContract(hash)`: look the contract up by hash. -/
def getContract (s : ManagementState) (h : Nat) : Option ContractState :=
  s.contracts.find? (fun c => c.hash == h)

/-- `Deploy(sender, nef, manifest)`: compute the contract hash from sender
and script via the hash function `cch` (`state.CreateContractHash`), fail if
a contract with that hash exists, else store it under the next id. -/
def deployContract (cch : Nat → List Nat → Nat) (s : ManagementState)
    (sender : Nat) (script : List Nat) (manifest : String) :
    Except String (ContractState × ManagementState) :=
  let h := cch sender script
  match getContract s h with
  | some _ => .error "contract already exists"
  | none =>
    let c : ContractState :=
      { id := s.nextID, updateCounter := 0, hash := h,
        script := script, manifest := manifest }
    .ok (c, { contracts := s.contracts ++ [c], nextID := s.nextID + 1 })

/-- `Update(hash, nef, manifest)`: fail when no contract has the hash, else
keep id and hash, replace script and manifest, increment the update
counter. -/
def updateContract (s : ManagementState) (h : Nat) (script : List Nat)
    (manifest : String) : Except String (ContractState × ManagementState) :=
  match getContract s h with
  | none => .error "contract does not exist"
  | some c =>
    let c' : ContractState :=
      { id := c.id, updateCounter := c.updateCounter + 1, hash := c.hash,
        script := script, manifest := manifest }
    .ok (c', { s with
      contracts := s.contracts.map (fun d => if d.hash == h then c' else d) })

/-- `Destroy(hash)`: remove the contract with the hash. -/
def destroyContract (s : ManagementState) (h : Nat) : ManagementState :=
  { s with contracts := s.contracts.filter (fun c => !(c.hash == h)) }

/-! ## CheckWitness scope evaluation

Modelled from the spec: the `runtime.CheckWitness` interop is not under
src/ — only `TestRuntimeCheckWitness` is. Per the spec: scope None gives
false; Global gives true whenever the hash is among the signers;
CustomContracts gives true only when the currently executing script hash is
in the signer's allowed-contracts list; CustomGroups requires the
AllowStates call flag and gives true only when the calling contract has a
manifest group key in the signer's allowed-groups list; CalledByEntry gives
true when the current context is (called by) the entry script. Hashes and
group keys are opaque `Nat`s. -/

/-- Witness scope of a transaction signer. -/
inductive WitnessScope where
  | scopeNone
  | calledByEntry
  | customContracts
  | customGroups
  | globalScope
  deriving DecidableEq, Repr

/-- A transaction signer: account hash, scope and the scope's allow-lists. -/
structure TxSigner where
  account : Nat
  scope : WitnessScope
  allowedContracts : List Nat
  allowedGroups : List Nat
  deriving DecidableEq, Repr

/-- The context `CheckWitness` consults: the transaction's signers, the
currently executing script hash, whether the current context descends from
the entry script, the manifest group keys of the calling contract, and
whether the current context holds the AllowStates call flag. -/
structure WitnessCtx where
  signers : List TxSigner
  currentScriptHash : Nat
  calledByEntry : Bool
  callingGroupKeys : List Nat
  hasAllowStates : Bool

/-- Modelled from the spec: `CheckWitness(h)` scope evaluation for a signer
hash `h`. A missing signer gives false; scope None gives false; Global
gives true; CalledByEntry reflects the call chain; CustomContracts checks
the executing script hash against the allow-list; CustomGroups requires the
AllowStates flag (an error otherwise) and intersects the calling contract's
group keys with the allow-list. -/
def checkWitness (ctx : WitnessCtx) (h : Nat) : Except String Bool :=
  match ctx.signers.find? (fun s => s.account == h) with
  | none => .ok false
  | some s =>
    match s.scope with
    | .scopeNone => .ok false
    | .globalScope => .ok true
    | .calledByEntry => .ok ctx.calledByEntry
    | .customContracts => .ok (s.allowedContracts.contains ctx.currentScriptHash)
    | .customGroups =>
      if !ctx.hasAllowStates then
        .error "missing AllowStates call flag"
      else
        .ok (ctx.callingGroupKeys.any (fun g => s.allowedGroups.contains g))

/-! ## Inter-contract call isolation (Contract.Call interop)

Modelled from the spec: the VM's `Contract.Call` interop and the
return-value handling on context unload are not under src/ — only
`TestContractCall` is. Per the spec, the callee runs on an isolated
evaluation stack holding only its arguments; on return exactly the declared
return-value count must remain (one item for a non-void method, none for a
void one, which hands `Null` to the caller); violations fault. The callee's
execution is a function from its initial isolated stack to its final stack,
`none` modelling an internal fault (such as popping an empty stack). -/

/-- A VM stack item (restricted to what the isolation model needs). -/
inductive VItem where
  | int (n : Int)
  | null
  deriving DecidableEq, Repr

/-- Opcodes of a small callee script, enough to exhibit stack-isolation
faults: push a constant, drop the top item. -/
inductive COp where
  | push (n : Int)
  | dropTop
  deriving DecidableEq, Repr

/-- Run a callee script on a stack; popping an empty stack faults. -/
def execOps : List COp → List VItem → Option (List VItem)
  | [], st => some st
  | .push n :: ops, st => execOps ops (.int n :: st)
  | .dropTop :: ops, st =>
    match st with
    | [] => none
    | _ :: st' => execOps ops st'

/-- Modelled from the spec: inter-contract call. The callee `f` executes on
an isolated stack holding only the arguments; a void method must leave an
empty stack and hands `Null` to the caller, a non-void method must leave
exactly one item, which is pushed onto the caller's stack; anything else
faults. -/
def contractCall (callerStack : List VItem) (args : List VItem)
    (isVoid : Bool) (f : List VItem → Option (List VItem)) :
    Option (List VItem) :=
  match f args with
  | none => none
  | some finalStack =>
    if isVoid then
      match finalStack with
      | [] => some (VItem.null :: callerStack)
      | _ => none
    else
      match finalStack with
      | [r] => some (r :: callerStack)
      | _ => none

/-- The item an inter-contract call hands to the caller (`none` when the
call faults); a function of the callee alone, not of the caller's stack. -/
def calleeOutcome (args : List VItem) (isVoid : Bool)
    (f : List VItem → Option (List VItem)) : Option VItem :=
  match f args with
  | none => none
  | some finalStack =>
    if isVoid then
      match finalStack with
      | [] => some VItem.null
      | _ => none
    else
      match finalStack with
      | [r] => some r
      | _ => none

/-! ## Helper lemmas -/

/-- `find?` over an appended matching element finds something. -/
theorem find?_append_matching {α : Type} (l : List α) (p : α → Bool) (c : α)
    (hc : p c = true) : ∃ x, (l ++ [c]).find? p = some x := by
  induction l with
  | nil => exact ⟨c, by simp [List.find?, hc]⟩
  | cons a l ih =>
    cases ha : p a with
    | true => exact ⟨a, by simp [List.find?, ha]⟩
    | false =>
      obtain ⟨x, hx⟩ := ih
      exact ⟨x, by simp [List.find?, ha, hx]⟩

/-- `find?` for a predicate over a list filtered by its negation is `none`. -/
theorem find?_filter_neg {α : Type} (l : List α) (p : α → Bool) :
    (l.filter (fun a => !(p a))).find? p = none := by
  induction l with
  | nil => rfl
  | cons a l ih =>
    cases ha : p a with
    | true => simp [List.filter, ha, ih]
    | false => simp [List.filter, List.find?, ha, ih]

/-- C9: for every content-type header, `checkMediaType` returns true when the
allowed-content-types list is empty; when the list is non-empty it returns
true iff the header parses as a media type whose type equals some element of
the list, and false for an unparsable header. -/
theorem checkMediaType_spec (parse : String → Option String) (hdr : String)
    (allowed : List String) :
    (allowed = [] → checkMediaType parse hdr allowed = true) ∧
    (allowed ≠ [] →
      (checkMediaType parse hdr allowed = true ↔
        ∃ typ, parse hdr = some typ ∧ typ ∈ allowed)) ∧
    (allowed ≠ [] → parse hdr = none →
      checkMediaType parse hdr allowed = false) := by
  refine ⟨?_, ?_, ?_⟩
  · intro h
    subst h
    rfl
  · intro hne
    cases hp : parse hdr with
    | none => simp [checkMediaType, hp, List.length_eq_zero, hne]
    | some t => simp [checkMediaType, hp, List.length_eq_zero, hne]
  · intro hne hp
    simp [checkMediaType, hp, List.length_eq_zero, hne]

/-- Witness for C9 at concrete inputs. -/
theorem checkMediaType_spec_witness :
    checkMediaType (fun _ => some "application/json") "application/json"
      ["application/json"] = true ∧
    checkMediaType (fun _ => none) "bogus" ["text/plain"] = false := by
  constructor
  · exact ((checkMediaType_spec (fun _ => some "application/json")
      "application/json" ["application/json"]).2.1 (by simp)).mpr
      ⟨"application/json", rfl, by simp⟩
  · exact (checkMediaType_spec (fun _ => none) "bogus" ["text/plain"]).2.2
      (by simp) rfl

/-- The bump loop terminates above the current height when the increment is
positive and no `uint32` wrap can occur. -/
theorem bumpVUB_above (cur inc : Nat) (hinc : 0 < inc)
    (hbound : cur + inc < u32Mod) :
    ∀ fuel h, cur + 1 ≤ h + fuel → h ≤ cur + inc →
      ∃ b, bumpVUB cur inc h fuel = some b ∧ cur < b := by
  intro fuel
  induction fuel with
  | zero =>
    intro h hfuel _
    refine ⟨h, ?_, by omega⟩
    simp [bumpVUB, Nat.lt_of_succ_le (by omega : cur + 1 ≤ h)]
  | succ fuel ih =>
    intro h hfuel hle
    by_cases hcur : cur < h
    · exact ⟨h, by simp [bumpVUB, hcur], hcur⟩
    · have hh : h ≤ cur := by omega
      have hmod : (h + inc) % u32Mod = h + inc :=
        Nat.mod_eq_of_lt (by omega)
      obtain ⟨b, hb, hcb⟩ := ih (h + inc) (by omega) (by omega)
      refine ⟨b, ?_, hcb⟩
      simp [bumpVUB, hcur, hmod, hb]

/-- C7: for every successfully processed oracle request, the primary
response transaction's valid-until height equals the request height plus
the configured valid-until-block increment (the current height standing in
when the request transaction is not yet persisted), and the backup
(`ConsensusUnreachable`) response transaction's valid-until height is
strictly greater than the current height (assuming a positive increment and
no `uint32` wrap, and a request height at most the current height). -/
theorem oracle_vub_spec (cur inc : Nat) (reqHeight : Option Nat)
    (hinc : 0 < inc) (hbound : cur + inc < u32Mod)
    (hreq : ∀ rh, reqHeight = some rh → rh ≤ cur) :
    (∀ rh, reqHeight = some rh → primaryVUB cur inc reqHeight = rh + inc) ∧
    (reqHeight = none → primaryVUB cur inc reqHeight = cur + inc) ∧
    (∃ b, backupVUB cur inc reqHeight = some b ∧ cur < b) := by
  have hbase : ∀ rh, reqHeight = some rh →
      primaryVUB cur inc reqHeight = rh + inc := by
    intro rh hrh
    have := hreq rh hrh
    simp [primaryVUB, hrh, Nat.mod_eq_of_lt (by omega : rh + inc < u32Mod)]
  refine ⟨hbase, ?_, ?_⟩
  · intro hrh
    simp [primaryVUB, hrh, Nat.mod_eq_of_lt (by omega : cur + inc < u32Mod)]
  · have hstart : primaryVUB cur inc reqHeight ≤ cur + inc := by
      cases hr : reqHeight with
      | none => simpa [primaryVUB] using Nat.mod_le (cur + inc) u32Mod
      | some rh =>
        have h1 := hreq rh hr
        have h2 : (rh + inc) % u32Mod ≤ rh + inc := Nat.mod_le _ _
        simp only [primaryVUB]
        omega
    exact bumpVUB_above cur inc hinc hbound (cur + 2)
      (primaryVUB cur inc reqHeight) (by omega) hstart

/-- Witness for C7 at concrete inputs. -/
theorem oracle_vub_spec_witness :
    primaryVUB 10 5 (some 7) = 12 ∧
    ∃ b, backupVUB 10 5 (some 7) = some b ∧ 10 < b := by
  have h := oracle_vub_spec 10 5 (some 7) (by decide) (by decide)
    (by intro rh hrh; simp at hrh; omega)
  exact ⟨h.1 7 rfl, h.2.2⟩

/-- C10: `CreateMultiSigRedeemScript` returns an error exactly when `m ≤ 1`,
or `m` exceeds the number of public keys, or `m > 1024`; otherwise it
returns the script made of the emitted integer `m`, the public keys in
sorted order, the emitted key count, and the `CHECKMULTISIG` opcode. -/
theorem CreateMultiSigRedeemScript_spec {K : Type} (le : K → K → Bool)
    (emitInt : Int → List Nat) (emitBytes : K → List Nat)
    (opCheckMultisig : Nat) (m : Int) (publicKeys : List K) :
    (exceptFailed
        (CreateMultiSigRedeemScript le emitInt emitBytes opCheckMultisig
          m publicKeys) = true ↔
      (m ≤ 1 ∨ (publicKeys.length : Int) < m ∨ 1024 < m)) ∧
    (1 < m → m ≤ (publicKeys.length : Int) → m ≤ 1024 →
      CreateMultiSigRedeemScript le emitInt emitBytes opCheckMultisig
          m publicKeys =
        .ok (emitInt m
          ++ ((sortKeys le publicKeys).map emitBytes).flatten
          ++ emitInt (publicKeys.length : Int)
          ++ [opCheckMultisig])) := by
  unfold CreateMultiSigRedeemScript
  constructor
  · split_ifs with h1 h2 h3 <;> simp [exceptFailed] <;> omega
  · intro ha hb hc
    split_ifs with h1 h2 h3 <;> first
      | rfl
      | omega

/-- Witness for C10 at concrete inputs. -/
theorem CreateMultiSigRedeemScript_spec_witness :
    CreateMultiSigRedeemScript (fun a b : Nat => decide (a ≤ b))
      (fun i => [i.toNat]) (fun k => [k]) 174 2 [5, 3] =
      .ok [2, 3, 5, 2, 174] := by
  have h := (CreateMultiSigRedeemScript_spec (fun a b : Nat => decide (a ≤ b))
    (fun i => [i.toNat]) (fun k => [k]) 174 2 [5, 3]).2
    (by decide) (by decide) (by decide)
  simpa using h

/-- C2: the response code computed by `processRequest`: an unparsable URL or
a scheme other than https/neofs gives ProtocolNotSupported; on https, a
restricted-redirect error gives Forbidden; status 200 gives Success after
the content-type and size checks (oversize body: ResponseTooLarge,
disallowed content type: ContentTypeNotSupported); 403 gives Forbidden, 404
NotFound, 408 Timeout, any other status Error; and a Success code is turned
into Error when the request's filter fails. -/
theorem processRequest_code_spec (http : HTTPOutcome) (nf : NeoFSOutcome)
    (act : List String) (pm : String → Option String)
    (fr : List Nat → Option (List Nat)) (scheme contentType : String)
    (status : Nat) (b r : List Nat) :
    ((processRequestCode ⟨.malformed, http, nf, act, pm, fr⟩).1 =
      .ProtocolNotSupported) ∧
    (scheme ≠ "https" → scheme ≠ neofsURIScheme →
      (processRequestCode ⟨.parsed scheme, http, nf, act, pm, fr⟩).1 =
        .ProtocolNotSupported) ∧
    ((processRequestCode
        ⟨.parsed "https", .doRestrictedRedirect, nf, act, pm, fr⟩).1 =
      .Forbidden) ∧
    (checkMediaType pm contentType act = true → fr b = some r →
      processRequestCode
          ⟨.parsed "https", .resp 200 contentType (.bytes b), nf, act, pm, fr⟩ =
        (.Success, r)) ∧
    (checkMediaType pm contentType act = true →
      (processRequestCode
          ⟨.parsed "https", .resp 200 contentType .tooLarge, nf, act, pm, fr⟩).1 =
        .ResponseTooLarge) ∧
    (checkMediaType pm contentType act = false →
      (processRequestCode
          ⟨.parsed "https", .resp 200 contentType .tooLarge, nf, act, pm, fr⟩).1 =
        .ContentTypeNotSupported) ∧
    (checkMediaType pm contentType act = false →
      (processRequestCode
          ⟨.parsed "https", .resp 200 contentType (.bytes b), nf, act, pm, fr⟩).1 =
        .ContentTypeNotSupported) ∧
    ((processRequestCode
        ⟨.parsed "https", .resp 403 contentType (.bytes b), nf, act, pm, fr⟩).1 =
      .Forbidden) ∧
    ((processRequestCode
        ⟨.parsed "https", .resp 404 contentType (.bytes b), nf, act, pm, fr⟩).1 =
      .NotFound) ∧
    ((processRequestCode
        ⟨.parsed "https", .resp 408 contentType (.bytes b), nf, act, pm, fr⟩).1 =
      .Timeout) ∧
    (status ≠ 200 → status ≠ 403 → status ≠ 404 → status ≠ 408 →
      (processRequestCode
          ⟨.parsed "https", .resp status contentType (.bytes b), nf, act, pm,
            fr⟩).1 =
        .Error) ∧
    (checkMediaType pm contentType act = true → fr b = none →
      (processRequestCode
          ⟨.parsed "https", .resp 200 contentType (.bytes b), nf, act, pm,
            fr⟩).1 =
        .Error) := by
  refine ⟨rfl, ?_, rfl, ?_, ?_, ?_, ?_, rfl, rfl, rfl, ?_, ?_⟩
  · intro h1 h2
    have h2' : scheme ≠ "neofs" := h2
    simp [processRequestCode, fetchStage, neofsURIScheme, h1, h2']
  · intro hmt hfr
    simp [processRequestCode, fetchStage, hmt, hfr]
  · intro hmt
    simp [processRequestCode, fetchStage, hmt]
  · intro hmt
    simp [processRequestCode, fetchStage, hmt]
  · intro hmt
    simp [processRequestCode, fetchStage, hmt]
  · intro h1 h2 h3 h4
    simp [processRequestCode, fetchStage, h1, h2, h3, h4]
  · intro hmt hfr
    simp [processRequestCode, fetchStage, hmt, hfr]

/-- Witness for C2 at concrete inputs. -/
theorem processRequest_code_spec_witness :
    processRequestCode
        ⟨.parsed "https",
          .resp 200 "application/json"
            (.bytes [52, 50]),
          .err, [], fun _ => some "application/json", some⟩ =
      (.Success, [52, 50]) ∧
    (processRequestCode
        ⟨.parsed "ftp", .doErr, .err, [], fun _ => none, some⟩).1 =
      .ProtocolNotSupported := by
  constructor
  · exact (processRequest_code_spec (.resp 200 "application/json"
      (.bytes [52, 50])) .err [] (fun _ => some "application/json") some
      "https" "application/json" 200 [52, 50] [52, 50]).2.2.2.1 (by decide)
      rfl
  · exact (processRequest_code_spec .doErr .err [] (fun _ => none) some
      "ftp" "x" 0 [] []).2.1 (by decide) (by decide)

/-- C6: a native-contract method invocation (version 0 on top of the stack,
the native found by the current script hash) faults whenever the method is
not found at the current instruction offset, or the context's call flags do
not include the method's required flags, or adding the method's price to
the consumed gas would exceed the gas limit; otherwise it pops exactly the
declared number of arguments (after the version) and pushes the result
exactly when the declared return type is not Void. -/
theorem nativeCall_spec (natives : List NativeContract) (ctx : VMCtx)
    (rest : List Int) (c : NativeContract)
    (hstack : ctx.estack = 0 :: rest)
    (hfind : natives.find? (fun c' => c'.hash == ctx.currentScriptHash) =
      some c) :
    (c.methodAt ctx.ip = none →
      exceptFailed (nativeCall natives ctx) = true) ∧
    (∀ m, c.methodAt ctx.ip = some m →
      (flagsHas ctx.callFlags m.requiredFlags = false →
        exceptFailed (nativeCall natives ctx) = true) ∧
      (flagsHas ctx.callFlags m.requiredFlags = true →
        0 ≤ ctx.gasLimit → ctx.gasLimit < ctx.gasConsumed + m.price →
        exceptFailed (nativeCall natives ctx) = true) ∧
      (flagsHas ctx.callFlags m.requiredFlags = true →
        ¬(0 ≤ ctx.gasLimit ∧ ctx.gasLimit < ctx.gasConsumed + m.price) →
        m.paramCount ≤ rest.length →
        nativeCall natives ctx = .ok { ctx with
          estack :=
            if m.isVoid then rest.drop m.paramCount
            else m.impl (rest.take m.paramCount) :: rest.drop m.paramCount,
          gasConsumed := ctx.gasConsumed + m.price })) := by
  constructor
  · intro hm
    simp [nativeCall, hstack, hfind, hm, exceptFailed]
  · intro m hm
    refine ⟨?_, ?_, ?_⟩
    · intro hflags
      simp [nativeCall, hstack, hfind, hm, hflags, exceptFailed]
    · intro hflags hgl hgc
      simp [nativeCall, hstack, hfind, hm, hflags, exceptFailed, hgl, hgc]
    · intro hflags hgas hargs
      simp [nativeCall, hstack, hfind, hm, hflags, exceptFailed, hgas,
        Nat.not_lt.mpr hargs]

/-- Witness for C6 at a concrete invocation. -/
theorem nativeCall_spec_witness :
    nativeCall
        [⟨7, fun off =>
          if off = 3 then
            some ⟨0, 5, 1, false, fun args => args.headD 0 + 1⟩
          else none⟩]
        ⟨[0, 10], 7, 3, 0, 0, 100⟩ =
      .ok ⟨[11], 7, 3, 0, 5, 100⟩ := by
  have h := ((nativeCall_spec
    [⟨7, fun off =>
      if off = 3 then
        some ⟨0, 5, 1, false, fun args => args.headD 0 + 1⟩
      else none⟩]
    ⟨[0, 10], 7, 3, 0, 0, 100⟩ [10] _ rfl rfl).2
    ⟨0, 5, 1, false, fun args => args.headD 0 + 1⟩ rfl).2.2 rfl
    (by decide) (by decide)
  simpa using h

/-- C3: deploying a contract assigns it the next (positive) integer id, a
zero update counter and the hash computed from sender and contract data;
deploying the same (sender, script) pair twice fails; updating keeps hash
and id and increments the update counter by one; after Destroy, looking the
contract up by hash no longer returns it. -/
theorem management_contract_lifecycle_spec (cch : Nat → List Nat → Nat)
    (s : ManagementState) (sender : Nat) (script : List Nat)
    (manifest : String) :
    (∀ c s1, deployContract cch s sender script manifest = .ok (c, s1) →
      c.id = s.nextID ∧ (1 ≤ s.nextID → 1 ≤ c.id) ∧
      c.updateCounter = 0 ∧ c.hash = cch sender script ∧
      s1.nextID = s.nextID + 1) ∧
    (∀ c s1 manifest2,
      deployContract cch s sender script manifest = .ok (c, s1) →
      exceptFailed (deployContract cch s1 sender script manifest2) = true) ∧
    (∀ h ns nm c' s1, updateContract s h ns nm = .ok (c', s1) →
      ∃ c, getContract s h = some c ∧ c'.id = c.id ∧ c'.hash = c.hash ∧
        c'.updateCounter = c.updateCounter + 1) ∧
    (∀ h, getContract (destroyContract s h) h = none) := by
  refine ⟨?_, ?_, ?_, ?_⟩
  · intro c s1 hdep
    cases hg : getContract s (cch sender script) with
    | some c0 => simp [deployContract, hg] at hdep
    | none =>
      simp [deployContract, hg, Prod.ext_iff] at hdep
      obtain ⟨hc, hs1⟩ := hdep
      subst hc
      subst hs1
      exact ⟨rfl, fun h1 => h1, rfl, rfl, rfl⟩
  · intro c s1 manifest2 hdep
    cases hg : getContract s (cch sender script) with
    | some c0 => simp [deployContract, hg] at hdep
    | none =>
      simp [deployContract, hg, Prod.ext_iff] at hdep
      obtain ⟨hc, hs1⟩ := hdep
      subst hc
      subst hs1
      obtain ⟨x, hx⟩ := find?_append_matching s.contracts
        (fun d => d.hash == cch sender script)
        ⟨s.nextID, 0, cch sender script, script, manifest⟩ (by simp)
      simp [deployContract, getContract, exceptFailed, hx]
  · intro h ns nm c' s1 hupd
    cases hg : getContract s h with
    | none => simp [updateContract, hg] at hupd
    | some c =>
      simp [updateContract, hg, Prod.ext_iff] at hupd
      obtain ⟨hc, hs1⟩ := hupd
      subst hc
      exact ⟨c, rfl, rfl, rfl, rfl⟩
  · intro h
    unfold destroyContract getContract
    exact find?_filter_neg s.contracts (fun c => c.hash == h)

/-- Witness for C3: deploy, double-deploy failure, update and destroy at
concrete inputs. -/
theorem management_contract_lifecycle_spec_witness :
    deployContract (fun a b => a * 100 + b.length) mgmtInit 1 [2] "Test" =
      .ok (⟨1, 0, 101, [2], "Test"⟩, ⟨[⟨1, 0, 101, [2], "Test"⟩], 2⟩) ∧
    exceptFailed (deployContract (fun a b => a * 100 + b.length)
      ⟨[⟨1, 0, 101, [2], "Test"⟩], 2⟩ 1 [2] "Other") = true ∧
    (∃ c, getContract ⟨[⟨1, 0, 101, [2], "Test"⟩], 2⟩ 101 = some c ∧
      (⟨1, 1, 101, [9], "Test"⟩ : ContractState).id = c.id ∧
      (⟨1, 1, 101, [9], "Test"⟩ : ContractState).hash = c.hash ∧
      (⟨1, 1, 101, [9], "Test"⟩ : ContractState).updateCounter =
        c.updateCounter + 1) ∧
    getContract (destroyContract ⟨[⟨1, 0, 101, [2], "Test"⟩], 2⟩ 101) 101 =
      none := by
  refine ⟨rfl, ?_, ?_, ?_⟩
  · exact (management_contract_lifecycle_spec (fun a b => a * 100 + b.length)
      mgmtInit 1 [2] "Test").2.1 ⟨1, 0, 101, [2], "Test"⟩
      ⟨[⟨1, 0, 101, [2], "Test"⟩], 2⟩ "Other" rfl
  · exact (management_contract_lifecycle_spec (fun a b => a * 100 + b.length)
      ⟨[⟨1, 0, 101, [2], "Test"⟩], 2⟩ 1 [2] "Test").2.2.1 101 [9] "Test"
      ⟨1, 1, 101, [9], "Test"⟩
      ⟨[⟨1, 1, 101, [9], "Test"⟩], 2⟩ rfl
  · exact (management_contract_lifecycle_spec (fun a b => a * 100 + b.length)
      ⟨[⟨1, 0, 101, [2], "Test"⟩], 2⟩ 1 [2] "Test").2.2.2 101

/-- C4: for a transaction signer with account hash `h` (the signer found
for `h`), `CheckWitness(h)` evaluates per the witness scope: None gives
false; Global gives true; CustomContracts gives true exactly when the
currently executing script hash is in the signer's allowed-contracts list;
CustomGroups gives true only when the calling contract has a manifest group
key in the signer's allowed-groups list and the context holds the
AllowStates call flag. -/
theorem checkWitness_scope_spec (ctx : WitnessCtx) (h : Nat) (s : TxSigner)
    (hfind : ctx.signers.find? (fun t => t.account == h) = some s) :
    (s.scope = .scopeNone → checkWitness ctx h = .ok false) ∧
    (s.scope = .globalScope → checkWitness ctx h = .ok true) ∧
    (s.scope = .customContracts →
      (checkWitness ctx h = .ok true ↔
        ctx.currentScriptHash ∈ s.allowedContracts)) ∧
    (s.scope = .customGroups → checkWitness ctx h = .ok true →
      ctx.hasAllowStates = true ∧
      ∃ g ∈ ctx.callingGroupKeys, g ∈ s.allowedGroups) := by
  refine ⟨?_, ?_, ?_, ?_⟩
  · intro hsc
    simp [checkWitness, hfind, hsc]
  · intro hsc
    simp [checkWitness, hfind, hsc]
  · intro hsc
    simp [checkWitness, hfind, hsc]
  · intro hsc hok
    cases hAS : ctx.hasAllowStates with
    | false => simp [checkWitness, hfind, hsc, hAS] at hok
    | true =>
      simp [checkWitness, hfind, hsc, hAS] at hok
      exact ⟨rfl, hok⟩

/-- Witness for C4 at concrete contexts and signers. -/
theorem checkWitness_scope_spec_witness :
    checkWitness ⟨[⟨9, .customContracts, [5], []⟩], 5, false, [], false⟩ 9 =
      .ok true ∧
    checkWitness ⟨[⟨9, .globalScope, [], []⟩], 5, false, [], false⟩ 9 =
      .ok true ∧
    checkWitness ⟨[⟨9, .scopeNone, [], []⟩], 5, false, [], false⟩ 9 =
      .ok false := by
  refine ⟨?_, ?_, ?_⟩
  · exact ((checkWitness_scope_spec
      ⟨[⟨9, .customContracts, [5], []⟩], 5, false, [], false⟩ 9
      ⟨9, .customContracts, [5], []⟩ rfl).2.2.1 rfl).mpr (by simp)
  · exact (checkWitness_scope_spec
      ⟨[⟨9, .globalScope, [], []⟩], 5, false, [], false⟩ 9
      ⟨9, .globalScope, [], []⟩ rfl).2.1 rfl
  · exact (checkWitness_scope_spec
      ⟨[⟨9, .scopeNone, [], []⟩], 5, false, [], false⟩ 9
      ⟨9, .scopeNone, [], []⟩ rfl).1 rfl

/-- C5: an inter-contract call executes the callee on an evaluation stack
disjoint from the caller's — what it hands back is a function of the callee
and its arguments alone, pushed onto the caller's untouched stack; a callee
leaving more items than the declared return-value count faults, a callee
popping from its empty isolated stack faults even when the caller's stack
is non-empty, and a void method returns Null to the caller. -/
theorem contractCall_isolation_spec (callerStack : List VItem)
    (args : List VItem) (isVoid : Bool)
    (f : List VItem → Option (List VItem)) :
    (contractCall callerStack args isVoid f =
      (calleeOutcome args isVoid f).map (fun r => r :: callerStack)) ∧
    (∀ fs, f args = some fs → 2 ≤ fs.length →
      contractCall callerStack args isVoid f = none) ∧
    (f args = some [] → isVoid = true →
      contractCall callerStack args isVoid f =
        some (VItem.null :: callerStack)) ∧
    (contractCall callerStack [] isVoid (execOps [COp.dropTop]) = none) := by
  refine ⟨?_, ?_, ?_, ?_⟩
  · cases hf : f args with
    | none => simp [contractCall, calleeOutcome, hf]
    | some fs =>
      cases isVoid with
      | true =>
        cases fs with
        | nil => simp [contractCall, calleeOutcome, hf]
        | cons a t => simp [contractCall, calleeOutcome, hf]
      | false =>
        cases fs with
        | nil => simp [contractCall, calleeOutcome, hf]
        | cons a t =>
          cases t with
          | nil => simp [contractCall, calleeOutcome, hf]
          | cons b u => simp [contractCall, calleeOutcome, hf]
  · intro fs hf hlen
    cases fs with
    | nil => simp at hlen
    | cons a t =>
      cases t with
      | nil => simp at hlen
      | cons b u =>
        cases isVoid <;> simp [contractCall, hf]
  · intro hf hv
    subst hv
    simp [contractCall, hf]
  · simp [contractCall, execOps]

/-- Witness for C5 at a concrete call. -/
theorem contractCall_isolation_spec_witness :
    contractCall [VItem.int 42] [] false (execOps [COp.push 7]) =
      some [VItem.int 7, VItem.int 42] ∧
    contractCall [VItem.int 42] [] true (execOps []) =
      some [VItem.null, VItem.int 42] ∧
    contractCall [VItem.int 42] [] false (execOps [COp.dropTop]) = none := by
  refine ⟨?_, ?_, ?_⟩
  · have h := (contractCall_isolation_spec [VItem.int 42] [] false
      (execOps [COp.push 7])).1
    simpa [calleeOutcome, execOps] using h
  · exact (contractCall_isolation_spec [VItem.int 42] [] true
      (execOps [])).2.2.1 rfl rfl
  · exact (contractCall_isolation_spec [VItem.int 42] [] false
      (execOps [COp.dropTop])).2.2.2

/-- One step of the oracle latch logic preserves the pooling invariant:
while the latch is unset nothing has gone through the ready path, and the
ready path fires at most once. -/
theorem oracleStep_pool_inv (s : OracleReqState) (a : OracleAction)
    (h1 : entrySent s = false → readyCount s = 0)
    (h2 : readyCount s ≤ 1) :
    (entrySent (oracleStep s a) = false →
      readyCount (oracleStep s a) = 0) ∧
    readyCount (oracleStep s a) ≤ 1 := by
  obtain ⟨entry, pooled⟩ := s
  cases a with
  | procRequest newTx newBackup finReady =>
    cases entry with
    | none =>
      cases finReady <;>
        simp [oracleStep, entrySent, readyCount, isReadySend,
          List.filter_append, -List.length_eq_zero] at h1 h2 ⊢ <;>
        omega
    | some e =>
      obtain ⟨tx, btx, sent⟩ := e
      cases sent <;> cases finReady <;>
        simp [oracleStep, entrySent, readyCount, isReadySend,
          List.filter_append, -List.length_eq_zero] at h1 h2 ⊢ <;>
        omega
  | procFailed finReady =>
    cases entry with
    | none =>
      simp only [oracleStep]
      exact ⟨h1, h2⟩
    | some e =>
      obtain ⟨tx, btx, sent⟩ := e
      cases sent <;> cases finReady <;>
        simp [oracleStep, entrySent, readyCount, isReadySend,
          List.filter_append, -List.length_eq_zero] at h1 h2 ⊢ <;>
        omega

/-- Running any sequence of oracle calls preserves the pooling invariant. -/
theorem oracleRun_pool_inv (acts : List OracleAction) :
    ∀ s : OracleReqState,
      (entrySent s = false → readyCount s = 0) → readyCount s ≤ 1 →
      (entrySent (oracleRun s acts) = false →
        readyCount (oracleRun s acts) = 0) ∧
      readyCount (oracleRun s acts) ≤ 1 := by
  induction acts with
  | nil => exact fun s h1 h2 => ⟨h1, h2⟩
  | cons a rest ih =>
    intro s h1 h2
    have hstep := oracleStep_pool_inv s a h1 h2
    exact ih (oracleStep s a) hstep.1 hstep.2

/-- C1 counterexample: after a `processRequest` call that reaches the
signature threshold (`is_sent` latch set), a later `processFailedRequest`
call for the same request id pools a transaction again — the response is
handed to the mempool callback twice. -/
theorem oracle_pooled_once_counterexample :
    entrySent (oracleRun oracleInit [OracleAction.procRequest 7 8 true]) =
      true ∧
    (oracleRun oracleInit
        [OracleAction.procRequest 7 8 true,
         OracleAction.procFailed false]).pooled =
      [PoolEvent.readySend 7, PoolEvent.resend 7] := by decide

/-- C1 amended: for every sequence of `processRequest` /
`processFailedRequest` calls on a request id, at most one transaction is
pooled through the finalize/ready path (none while the `is_sent` latch is
unset); once the latch is set, `processFailedRequest` only re-pools the
entry's stored, already-finalized transaction. -/
theorem oracle_ready_pooled_at_most_once (acts : List OracleAction) :
    readyCount (oracleRun oracleInit acts) ≤ 1 ∧
    (entrySent (oracleRun oracleInit acts) = false →
      readyCount (oracleRun oracleInit acts) = 0) ∧
    (∀ (s : OracleReqState) (e : IncompleteTx) (fr : Bool),
      s.entry = some e → e.isSent = true →
      oracleStep s (.procFailed fr) =
        { s with pooled := s.pooled ++ [PoolEvent.resend e.tx] }) := by
  have h := oracleRun_pool_inv acts oracleInit (fun _ => rfl) (by decide)
  refine ⟨h.2, h.1, ?_⟩
  intro s e fr hs he
  simp [oracleStep, hs, he]

/-- Witness for C1 (amended) at a concrete call sequence. -/
theorem oracle_ready_pooled_at_most_once_witness :
    readyCount (oracleRun oracleInit [OracleAction.procRequest 3 4 false]) =
      0 := by
  exact (oracle_ready_pooled_at_most_once
    [OracleAction.procRequest 3 4 false]).2.1 (by decide)

/-- C8 counterexample: with the capacity-100 FIFO cache, delivering 101
distinct valid payloads and then the first one again relays the first
payload twice — its hash was evicted from the cache. -/
theorem relay_never_twice_counterexample :
    ((runPayloads (fun _ => true) relayInit
        (List.range 101 ++ [0])).relayed.count 0) = 2 := by decide

/-- C8 amended: the consensus service keeps recently relayed payloads in a
FIFO cache of capacity 100, and `OnPayload` rebroadcasts and processes an
incoming payload only if it validates and its hash is not currently in the
cache — so a payload is not relayed twice while its hash remains cached,
though it can be relayed again after eviction. -/
theorem onPayload_relay_spec (valid : Nat → Bool) (s : RelayState)
    (h : Nat) :
    cacheMaxCapacity = 100 ∧
    (valid h = false → onPayload valid s h = s) ∧
    (cacheHas s.cache h = true → onPayload valid s h = s) ∧
    (valid h = true → cacheHas s.cache h = false →
      (onPayload valid s h).relayed = s.relayed ++ [h] ∧
      (onPayload valid s h).cache = cacheAdd cacheMaxCapacity s.cache h) := by
  refine ⟨rfl, ?_, ?_, ?_⟩
  · intro hv
    simp [onPayload, hv]
  · intro hc
    simp [onPayload, hc]
  · intro hv hc
    simp [onPayload, hv, hc]

/-- Witness for C8 (amended) at concrete payloads. -/
theorem onPayload_relay_spec_witness :
    onPayload (fun _ => false) relayInit 5 = relayInit ∧
    (onPayload (fun _ => true) relayInit 5).relayed = [5] := by
  constructor
  · exact (onPayload_relay_spec (fun _ => false) relayInit 5).2.1 rfl
  · have h :=
      ((onPayload_relay_spec (fun _ => true) relayInit 5).2.2.2 rfl rfl).1
    simpa using h

end NeoGo
